import Mathlib

/-!
Shallow embedding of the p5.beaker acid-equilibrium simulation core:
`particles.js` (Particle / ConjugateBase / Proton) and `beaker/beaker.js`
(Beaker).  JS numbers are modelled as `ℚ`; nullable JS values as `Option`;
object identity as `Nat` ids resolved through a heap (`World`).  The host
engine (p5.play) is an external collaborator: its point/sprite overlap tests
are taken as oracle parameters, and its per-frame clock `Date.now()` and
`Math.random()` draws are explicit arguments.
-/

/-- A p5.play sprite, restricted to the fields the simulation core reads and
writes: position, velocity, draw depth (nullable, since the code stores and
restores it through a nullable `restore_depth` slot) and the circular
collider radius. -/
structure Sprite where
  pos_x : ℚ
  pos_y : ℚ
  vel_x : ℚ
  vel_y : ℚ
  depth : Option ℚ
  radius : ℚ
deriving Repr, DecidableEq

/-- JS arithmetic coerces `null` to `0` (used for `baseSprite.depth + .5`). -/
def jsNum (o : Option ℚ) : ℚ := o.getD 0

/-- The `this.proton` hash a ConjugateBase carries (particles.js lines
173-180): the bond record.  JS `null` is `none`; `particle` holds the id of
the joined Proton object, if any. -/
structure ProtonHash where
  particle : Option Nat
  offset_x : ℚ
  offset_y : ℚ
  restore_depth : Option ℚ
  release_after_range : ℚ × ℚ
  post_release_duration : ℚ
  release_after : Option ℚ
deriving Repr, DecidableEq

/-- The bond record as initialized by the ConjugateBase constructor
(particles.js lines 173-180). -/
def ConjugateBase.initProtonHash : ProtonHash :=
  { particle := none
    offset_x := 10
    offset_y := -10
    restore_depth := none
    release_after_range := (0, 5000)
    post_release_duration := 750
    release_after := none }

/-- A ConjugateBase object: its sprite and its `this.proton` bond record. -/
structure BaseObj where
  sprite : Sprite
  proton : ProtonHash
deriving Repr, DecidableEq

/-- A Proton object: its sprite and its `this.base.particle` back-reference
(the id of the ConjugateBase currently bonding it, or `none`). -/
structure ProtonObj where
  sprite : Sprite
  base_particle : Option Nat
deriving Repr, DecidableEq

/-- The heap of particle objects: ConjugateBase objects and Proton objects,
each addressed by a `Nat` id (separate id spaces). -/
structure World where
  base : Nat → BaseObj
  protonObj : Nat → ProtonObj

/-- Assign the ConjugateBase object at id `b`. -/
def World.setBase (w : World) (b : Nat) (v : BaseObj) : World :=
  { w with base := fun j => if j = b then v else w.base j }

/-- Assign the Proton object at id `p`. -/
def World.setProton (w : World) (p : Nat) (v : ProtonObj) : World :=
  { w with protonObj := fun j => if j = p then v else w.protonObj j }

/-- ConjugateBase.prototype.reacts_with["Proton"] (particles.js lines
209-227), the reaction invoked by the beaker for a colliding
(ConjugateBase, Proton) sprite pair.  `now` is the `Date.now()` reading and
`rand` the `Math.random()` draw made inside the handler.  The JS guard
`!protonParticle.base.particle && !baseParticle.proton.particle` tests the
two object references for null. -/
def ConjugateBase.reactsWith_Proton (now rand : ℚ) (b p : Nat) (w : World) : World :=
  let baseParticle := w.base b
  let protonParticle := w.protonObj p
  if protonParticle.base_particle = none ∧ baseParticle.proton.particle = none then
    let release_after := now + baseParticle.proton.release_after_range.1 +
      baseParticle.proton.release_after_range.2 * rand
    let w1 := w.setBase b { baseParticle with proton :=
      { baseParticle.proton with
          release_after := some release_after
          particle := some p
          restore_depth := protonParticle.sprite.depth } }
    w1.setProton p { protonParticle with
        base_particle := some b
        sprite := { protonParticle.sprite with
            depth := some (jsNum baseParticle.sprite.depth + 0.5) } }
  else w

/-- ConjugateBase.prototype.update (particles.js lines 230-254) for the base
at id `b`, with `now` the `Date.now()` reading.  The JS test
`if (proton.release_after)` is a truthiness test: both `null` and `0` skip
the whole body.  The two dereferences of `proton.particle` throw a TypeError
when the reference is null, modelled as `Except.error`. -/
def ConjugateBase.update (now : ℚ) (b : Nat) (w : World) : Except String World :=
  let proton := (w.base b).proton
  match proton.release_after with
  | none => .ok w
  | some release_after =>
    if release_after = 0 then .ok w
    else if now < release_after then
      match proton.particle with
      | none => .error "TypeError: cannot read sprite of null"
      | some p =>
        let protonSprite := (w.protonObj p).sprite
        let baseSprite := (w.base b).sprite
        .ok (w.setProton p { w.protonObj p with sprite :=
          { protonSprite with
              pos_x := baseSprite.pos_x + proton.offset_x
              pos_y := baseSprite.pos_y + proton.offset_y } })
    else if now < release_after + proton.post_release_duration then
      .ok w
    else
      match proton.particle with
      | none => .error "TypeError: cannot read sprite of null"
      | some p =>
        let po := w.protonObj p
        let w1 := w.setProton p { po with
            sprite := { po.sprite with depth := proton.restore_depth }
            base_particle := none }
        .ok (w1.setBase b { w1.base b with proton :=
          { proton with restore_depth := none, release_after := none, particle := none } })

/-- JS object-property lookup on the beaker's `particles` hash, modelled as
an association list in insertion order. -/
def lookupAssoc {α : Type} : List (String × α) → String → Option α
  | [], _ => none
  | kv :: rest, key => if kv.1 = key then some kv.2 else lookupAssoc rest key

/-- Beaker.prototype.sprite_boundary_update (beaker.js lines 286-300).
`ov radius cx cy px py` is the external p5.play `overlapPoint` oracle for a
circular collider of the given radius centered at `(cx, cy)`, tested against
the point `(px, py)`; it depends only on these geometric data, so the second
pair of tests (which the source runs after the possible x-velocity
assignment) sees the same position. -/
def Beaker.sprite_boundary_update (ov : ℚ → ℚ → ℚ → ℚ → ℚ → Bool)
    (min_x min_y max_x max_y : ℚ) (s : Sprite) : Sprite :=
  let s1 :=
    if ov s.radius s.pos_x s.pos_y min_x s.pos_y then { s with vel_x := |s.vel_x| }
    else if ov s.radius s.pos_x s.pos_y max_x s.pos_y then { s with vel_x := -|s.vel_x| }
    else s
  if ov s1.radius s1.pos_x s1.pos_y s1.pos_x min_y then { s1 with vel_y := |s1.vel_y| }
  else if ov s1.radius s1.pos_x s1.pos_y s1.pos_x max_y then { s1 with vel_y := -|s1.vel_y| }
  else s1

/-- The p5.play circular-collider point-overlap test: the point lies
strictly inside the collider circle (collider offsets are 0 for every
particle class in this repository). -/
def circleOvPoint (radius cx cy px py : ℚ) : Bool :=
  decide ((cx - px) ^ 2 + (cy - py) ^ 2 < radius ^ 2)

/-- The environment a `Beaker.step` runs in: the clock reading, the solution
bounds, the two external overlap oracles, the `Math.random()` draw used when
the pair `(b, p)` reacts, and the beaker's `particles` hash mapping a type
name to the sprite ids of its group. -/
structure StepEnv where
  now : ℚ
  min_x : ℚ
  min_y : ℚ
  max_x : ℚ
  max_y : ℚ
  ovPoint : ℚ → ℚ → ℚ → ℚ → ℚ → Bool
  ovSprite : Sprite → Sprite → Bool
  rand : Nat → Nat → ℚ
  groups : List (String × List Nat)

/-- Beaker.prototype.sprite_resolve_collisions (beaker.js lines 302-311)
specialised to a ConjugateBase sprite, whose `reacts_with` table has the
single key "Proton": look that target group up in the beaker's particles
hash; when present, invoke the reaction on every overlapping member (in
group order); when absent, skip entirely. -/
def Beaker.sprite_resolve_collisions_base (env : StepEnv) (b : Nat) (w : World) : World :=
  match lookupAssoc env.groups "Proton" with
  | none => w
  | some ps =>
    ps.foldl (fun w2 p =>
      if env.ovSprite ((w2.base b).sprite) ((w2.protonObj p).sprite) then
        ConjugateBase.reactsWith_Proton env.now (env.rand b p) b p w2
      else w2) w

/-- A reference to one sprite of `all_particle_sprites`: either a
ConjugateBase or a Proton, by id. -/
inductive PRef where
  | base : Nat → PRef
  | proton : Nat → PRef
deriving Repr, DecidableEq

/-- One iteration of the loop in Beaker.prototype.update_particles
(beaker.js lines 274-283): boundary update, collision resolution for the
particle's `reacts_with` table (empty for a Proton), then the particle's own
`update` (a no-op for a Proton, the bond state machine for a base). -/
def Beaker.stepOne (env : StepEnv) (w : World) : PRef → Except String World
  | .base b =>
    let s1 := Beaker.sprite_boundary_update env.ovPoint env.min_x env.min_y env.max_x
      env.max_y (w.base b).sprite
    let w1 := w.setBase b { w.base b with sprite := s1 }
    let w2 := Beaker.sprite_resolve_collisions_base env b w1
    ConjugateBase.update env.now b w2
  | .proton p =>
    let s1 := Beaker.sprite_boundary_update env.ovPoint env.min_x env.min_y env.max_x
      env.max_y (w.protonObj p).sprite
    .ok (w.setProton p { w.protonObj p with sprite := s1 })

/-- Beaker.prototype.update_particles (beaker.js lines 265-284): the
per-sprite loop over `all_particle_sprites` in order; a thrown TypeError
aborts the loop. -/
def Beaker.update_particles (env : StepEnv) : List PRef → World → Except String World
  | [], w => .ok w
  | r :: rs, w =>
    match Beaker.stepOne env w r with
    | .error e => .error e
    | .ok w1 => Beaker.update_particles env rs w1

/-- Beaker.prototype.step (beaker.js lines 261-263): just calls
`update_particles`. -/
def Beaker.step (env : StepEnv) (order : List PRef) (w : World) : Except String World :=
  Beaker.update_particles env order w

/-- The bond-symmetry invariant of the spec: a base references a proton
exactly when that proton references it back. -/
def BondInv (w : World) : Prop :=
  ∀ b p : Nat, (w.base b).proton.particle = some p ↔ (w.protonObj p).base_particle = some b

/-- A particle class as the beaker sees it: the constructor's own static
`name`, the `prototype.name` property (present because webpack can mangle
the former), and the class's collider radius. -/
structure ParticleClass where
  staticName : String
  protoName : String
  collider_radius : ℚ
deriving Repr, DecidableEq

/-- The beaker's `solution` hash (beaker.js lines 122-128). -/
structure Solution where
  x : ℚ
  y : ℚ
  width : ℚ
  height : ℚ
  max_x : ℚ
  max_y : ℚ
deriving Repr, DecidableEq

/-- The solution hash as the Beaker constructor computes it:
`max_x = x + width`, `max_y = y + height`. -/
def Beaker.mkSolution (x y width height : ℚ) : Solution :=
  { x := x, y := y, width := width, height := height,
    max_x := x + width, max_y := y + height }

/-- The beaker's group bookkeeping: the `particles` hash (type name → sprite
ids of that group, in insertion order), `all_particle_sprites`, and a fresh
id counter modelling allocation of new particle objects. -/
structure BeakerState where
  particles : List (String × List Nat)
  all_particle_sprites : List Nat
  next_id : Nat
deriving Repr, DecidableEq

/-- Beaker.prototype.randomPoint (beaker.js lines 190-202).  `rx`/`ry` are
the two `Math.random()` draws (each in `[0,1)`). -/
def Beaker.randomPoint (sol : Solution) (rx ry : ℚ) (particle_radius : ℚ) :
    Option (ℚ × ℚ) :=
  if particle_radius * 2 ≥ sol.width ∨ particle_radius * 2 ≥ sol.height then
    none
  else
    let min_x := sol.x + particle_radius
    let min_y := sol.y + particle_radius
    let max_width := sol.width - 2 * particle_radius
    let max_height := sol.height - 2 * particle_radius
    some (min_x + rx * max_width, min_y + ry * max_height)

/-- Beaker.prototype.initParticleGroup (beaker.js lines 253-259): create an
empty group under the key unless one already exists. -/
def Beaker.initParticleGroup (name : String) (st : BeakerState) : BeakerState :=
  match lookupAssoc st.particles name with
  | some _ => st
  | none => { st with particles := st.particles ++ [(name, [])] }

/-- Beaker.prototype.addParticle (beaker.js lines 230-233): append the new
sprite to the keyed group (the caller has just initialized it) and to
`all_particle_sprites`. -/
def Beaker.addParticle (key : String) (id : Nat) (st : BeakerState) : BeakerState :=
  { st with
    particles := st.particles.map (fun kv => if kv.1 = key then (kv.1, kv.2 ++ [id]) else kv)
    all_particle_sprites := st.all_particle_sprites ++ [id] }

/-- The `for (var i = 0; i < quantity; i++)` loop of addParticles: at each
attempt draw a random point; on success construct a fresh particle (a fresh
id) and register it; on `null` silently skip.  `rands i` supplies the two
`Math.random()` draws of attempt `i`. -/
def Beaker.addParticlesLoop (sol : Solution) (cls : ParticleClass)
    (rands : Nat → ℚ × ℚ) : Nat → Nat → BeakerState → BeakerState
  | _, 0, st => st
  | i, Nat.succ remaining, st =>
    match Beaker.randomPoint sol (rands i).1 (rands i).2 cls.collider_radius with
    | some _ =>
      let st1 := Beaker.addParticle cls.protoName st.next_id { st with next_id := st.next_id + 1 }
      Beaker.addParticlesLoop sol cls rands (i + 1) remaining st1
    | none => Beaker.addParticlesLoop sol cls rands (i + 1) remaining st

/-- Beaker.prototype.addParticles (beaker.js lines 209-223): the group key
is `particle_class.prototype.name`.  (The constructed particle's sprite
position — the point returned by randomPoint — lives in the `World` heap
model; this state tracks the group registration.) -/
def Beaker.addParticles (sol : Solution) (cls : ParticleClass) (quantity : Nat)
    (rands : Nat → ℚ × ℚ) (st : BeakerState) : BeakerState :=
  Beaker.addParticlesLoop sol cls rands 0 quantity
    (Beaker.initParticleGroup cls.protoName st)

/-- Modelled from the spec: `Particle.prototype.remove` is not under `src/`
(only its caller `removeParticles` is).  Per the spec, removing a particle
detaches its sprite from its per-type group and from the all-particles set;
removal is by object identity, so every group entry equal to the id is
dropped. -/
def Particle.remove (id : Nat) (st : BeakerState) : BeakerState :=
  { st with
    particles := st.particles.map (fun kv => (kv.1, kv.2.filter (fun x => decide (x ≠ id))))
    all_particle_sprites := st.all_particle_sprites.filter (fun x => decide (x ≠ id)) }

/-- The `for (var i = quantity; i > 0; i--)` loop of removeParticles: fetch
the sprite at index `i-1` of the keyed group and remove it.  `get(i-1)`
returning `undefined` (index out of range) would make
`sprite.particle.remove()` throw, modelled as `Except.error`.  The returned
list records the removed ids in removal order. -/
def Beaker.removeLoop (key : String) :
    Nat → BeakerState → List Nat → Except String (BeakerState × List Nat)
  | 0, st, acc => .ok (st, acc)
  | Nat.succ i, st, acc =>
    match lookupAssoc st.particles key with
    | none => .error "TypeError: cannot read sprites of undefined"
    | some g =>
      match g[i]? with
      | none => .error "TypeError: cannot read particle of undefined"
      | some id => Beaker.removeLoop key i (Particle.remove id st) (acc ++ [id])

/-- Beaker.prototype.removeParticles (beaker.js lines 240-251): the group
key is `particle_class.name` (the constructor's static name, NOT
`prototype.name`).  Reading `.sprites` of an absent group entry throws a
TypeError.  The quantity is clamped to the group size. -/
def Beaker.removeParticles (cls : ParticleClass) (quantity : Nat) (st : BeakerState) :
    Except String (BeakerState × List Nat) :=
  let particle_name := cls.staticName
  match lookupAssoc st.particles particle_name with
  | none => .error "TypeError: cannot read sprites of undefined"
  | some g =>
    let num_particles := g.length
    let q := if num_particles < quantity then num_particles else quantity
    Beaker.removeLoop particle_name q st []

/-- A freshly constructed ConjugateBase sprite (depth 1 assigned by the
engine, collider radius 16 per ConjugateBase.prototype). -/
def exampleBaseSprite : Sprite :=
  { pos_x := 0, pos_y := 0, vel_x := 0, vel_y := 0, depth := some 1, radius := 16 }

/-- A freshly constructed Proton sprite (collider radius 6). -/
def exampleProtonSprite : Sprite :=
  { pos_x := 1, pos_y := 1, vel_x := 0, vel_y := 0, depth := some 2, radius := 6 }

/-- A free (unbonded) ConjugateBase in its constructor state. -/
def exampleBase : BaseObj :=
  { sprite := exampleBaseSprite, proton := ConjugateBase.initProtonHash }

/-- A free (unbonded) Proton. -/
def exampleProton : ProtonObj :=
  { sprite := exampleProtonSprite, base_particle := none }

/-- A heap of free bases and free protons. -/
def exampleWorld : World :=
  { base := fun _ => exampleBase, protonObj := fun _ => exampleProton }

/-- The world after base 0 captures proton 0 at clock 0 with random draw 0:
its `release_after` is the computed timestamp `0 + 0 + 5000 * 0 = 0`. -/
def zeroReleaseWorld : World :=
  ConjugateBase.reactsWith_Proton 0 0 0 0 exampleWorld

/-- A bonded pair whose stored `release_after` timestamp equals 0 (the value
the handler computes at clock 0 with random draw 0). -/
def bondedZeroWorld : World :=
  { base := fun _ =>
      { sprite := exampleBaseSprite
        proton := { ConjugateBase.initProtonHash with
          particle := some 0, restore_depth := some 2, release_after := some 0 } }
    protonObj := fun _ => { exampleProton with base_particle := some 0 } }

/-- A bonded pair with a nonzero `release_after` timestamp of 100. -/
def bondedWorld : World :=
  { base := fun _ =>
      { sprite := exampleBaseSprite
        proton := { ConjugateBase.initProtonHash with
          particle := some 0, restore_depth := some 2, release_after := some 100 } }
    protonObj := fun _ => { exampleProton with base_particle := some 0 } }

/-- A sprite whose circular collider (radius 16) spans the whole width of a
narrow solution region, and which is currently moving right. -/
def wideSprite : Sprite :=
  { pos_x := 2, pos_y := 50, vel_x := 3, vel_y := 0, depth := some 0, radius := 16 }

/-- A step environment: clock 0, a 100 by 100 solution at the origin, no
boundary contact, every base-proton pair overlapping, random draws 0, and a
Proton group holding the single proton 0. -/
def exampleEnv : StepEnv :=
  { now := 0, min_x := 0, min_y := 0, max_x := 100, max_y := 100
    ovPoint := fun _ _ _ _ _ => false
    ovSprite := fun _ _ => true
    rand := fun _ _ => 0
    groups := [("Proton", [0])] }

/-- exampleEnv with no "Proton" group registered at all. -/
def noProtonEnv : StepEnv :=
  { exampleEnv with groups := [("WeakConjugateBase", [0])] }

/-- A beaker holding exactly three Proton sprites, added in order 0, 1, 2. -/
def exampleBeaker3 : BeakerState :=
  { particles := [("Proton", [0, 1, 2])], all_particle_sprites := [0, 1, 2], next_id := 3 }

/-- A beaker to which no particle type was ever added. -/
def emptyBeaker : BeakerState :=
  { particles := [], all_particle_sprites := [], next_id := 0 }

/-- The Proton particle class: its static name and prototype name agree. -/
def protonClass : ParticleClass :=
  { staticName := "Proton", protoName := "Proton", collider_radius := 6 }

/-- A class in the situation `prototype.name` exists for: webpack mangled the
static constructor name (here to "t") while `prototype.name` still reads
"WeakConjugateBase" (weak.js lines 37-43). -/
def mangledWeakClass : ParticleClass :=
  { staticName := "t", protoName := "WeakConjugateBase", collider_radius := 16 }

theorem World.setBase_base_self (w : World) (b : Nat) (v : BaseObj) :
    (w.setBase b v).base b = v := by
  simp [World.setBase]

theorem World.setBase_base_ne (w : World) (v : BaseObj) {b j : Nat} (h : j ≠ b) :
    (w.setBase b v).base j = w.base j := by
  simp [World.setBase, h]

theorem World.setBase_protonObj (w : World) (b : Nat) (v : BaseObj) (j : Nat) :
    (w.setBase b v).protonObj j = w.protonObj j := rfl

theorem World.setProton_protonObj_self (w : World) (p : Nat) (v : ProtonObj) :
    (w.setProton p v).protonObj p = v := by
  simp [World.setProton]

theorem World.setProton_protonObj_ne (w : World) (v : ProtonObj) {p j : Nat} (h : j ≠ p) :
    (w.setProton p v).protonObj j = w.protonObj j := by
  simp [World.setProton, h]

theorem World.setProton_base (w : World) (p : Nat) (v : ProtonObj) (j : Nat) :
    (w.setProton p v).base j = w.base j := rfl

theorem reactsWith_Proton_pos (now rand : ℚ) (b p : Nat) (w : World)
    (h1 : (w.protonObj p).base_particle = none)
    (h2 : (w.base b).proton.particle = none) :
    ConjugateBase.reactsWith_Proton now rand b p w =
      (w.setBase b { w.base b with proton :=
        { (w.base b).proton with
            release_after := some (now + (w.base b).proton.release_after_range.1 +
              (w.base b).proton.release_after_range.2 * rand)
            particle := some p
            restore_depth := (w.protonObj p).sprite.depth } }).setProton p
        { w.protonObj p with
            base_particle := some b
            sprite := { (w.protonObj p).sprite with
                depth := some (jsNum (w.base b).sprite.depth + 0.5) } } := by
  unfold ConjugateBase.reactsWith_Proton
  rw [if_pos ⟨h1, h2⟩]

theorem reactsWith_Proton_neg (now rand : ℚ) (b p : Nat) (w : World)
    (h : ¬((w.protonObj p).base_particle = none ∧ (w.base b).proton.particle = none)) :
    ConjugateBase.reactsWith_Proton now rand b p w = w := by
  unfold ConjugateBase.reactsWith_Proton
  rw [if_neg h]

theorem reactsWith_Proton_preserves_BondInv (now rand : ℚ) (b p : Nat) (w : World)
    (hInv : BondInv w) : BondInv (ConjugateBase.reactsWith_Proton now rand b p w) := by
  by_cases hc : (w.protonObj p).base_particle = none ∧ (w.base b).proton.particle = none
  · rw [reactsWith_Proton_pos now rand b p w hc.1 hc.2]
    intro b' p'
    rw [World.setProton_base]
    by_cases hb' : b' = b
    · subst hb'
      rw [World.setBase_base_self]
      by_cases hp' : p' = p
      · subst hp'
        rw [World.setProton_protonObj_self]
        simp
      · rw [World.setProton_protonObj_ne _ _ hp']
        have hr := (hInv b' p').symm
        rw [hc.2] at hr
        simp only [show ({ w.base b' with proton :=
          { (w.base b').proton with
              release_after := some (now + (w.base b').proton.release_after_range.1 +
                (w.base b').proton.release_after_range.2 * rand)
              particle := some p
              restore_depth := (w.protonObj p).sprite.depth } } : BaseObj).proton.particle
            = some p from rfl]
        constructor
        · intro h
          exact absurd (Option.some.inj h).symm hp'
        · intro h
          exact absurd (hr.mp h) (by simp)
    · rw [World.setBase_base_ne _ _ hb']
      by_cases hp' : p' = p
      · subst hp'
        rw [World.setProton_protonObj_self]
        have hl := hInv b' p'
        rw [hc.1] at hl
        simp only [show ({ w.protonObj p' with
            base_particle := some b
            sprite := { (w.protonObj p').sprite with
                depth := some (jsNum (w.base b).sprite.depth + 0.5) } } : ProtonObj).base_particle
            = some b from rfl]
        constructor
        · intro h
          exact absurd (hl.mp h) (by simp)
        · intro h
          exact absurd (Option.some.inj h).symm hb'
      · rw [World.setProton_protonObj_ne _ _ hp']
        exact hInv b' p'
  · rw [reactsWith_Proton_neg now rand b p w hc]
    exact hInv

theorem update_no_record (now : ℚ) (b : Nat) (w : World)
    (h : (w.base b).proton.release_after = none) :
    ConjugateBase.update now b w = .ok w := by
  simp only [ConjugateBase.update, h]

theorem update_zero_timestamp (now : ℚ) (b : Nat) (w : World)
    (h : (w.base b).proton.release_after = some 0) :
    ConjugateBase.update now b w = .ok w := by
  simp [ConjugateBase.update, h]

theorem update_bonded (now ra : ℚ) (b p : Nat) (w : World)
    (hra : (w.base b).proton.release_after = some ra) (h0 : ra ≠ 0)
    (hlt : now < ra) (hp : (w.base b).proton.particle = some p) :
    ConjugateBase.update now b w = .ok (w.setProton p
      { w.protonObj p with sprite :=
        { (w.protonObj p).sprite with
            pos_x := (w.base b).sprite.pos_x + (w.base b).proton.offset_x
            pos_y := (w.base b).sprite.pos_y + (w.base b).proton.offset_y } }) := by
  simp only [ConjugateBase.update, hra, hp]
  rw [if_neg h0, if_pos hlt]

theorem update_bonded_dangling (now ra : ℚ) (b : Nat) (w : World)
    (hra : (w.base b).proton.release_after = some ra) (h0 : ra ≠ 0)
    (hlt : now < ra) (hp : (w.base b).proton.particle = none) :
    ConjugateBase.update now b w = .error "TypeError: cannot read sprite of null" := by
  simp only [ConjugateBase.update, hra, hp]
  rw [if_neg h0, if_pos hlt]

theorem update_releasing (now ra : ℚ) (b : Nat) (w : World)
    (hra : (w.base b).proton.release_after = some ra) (h0 : ra ≠ 0)
    (hge : ¬ now < ra)
    (hmid : now < ra + (w.base b).proton.post_release_duration) :
    ConjugateBase.update now b w = .ok w := by
  simp only [ConjugateBase.update, hra]
  rw [if_neg h0, if_neg hge, if_pos hmid]

theorem update_release_complete (now ra : ℚ) (b p : Nat) (w : World)
    (hra : (w.base b).proton.release_after = some ra) (h0 : ra ≠ 0)
    (hge : ¬ now < ra)
    (hmid : ¬ now < ra + (w.base b).proton.post_release_duration)
    (hp : (w.base b).proton.particle = some p) :
    ConjugateBase.update now b w = .ok (World.setBase (w.setProton p
      { w.protonObj p with
          sprite := { (w.protonObj p).sprite with depth := (w.base b).proton.restore_depth }
          base_particle := none }) b
      { w.base b with proton :=
        { (w.base b).proton with
            restore_depth := none, release_after := none, particle := none } }) := by
  simp only [ConjugateBase.update, hra, hp]
  rw [if_neg h0, if_neg hge, if_neg hmid]
  rfl

theorem update_release_dangling (now ra : ℚ) (b : Nat) (w : World)
    (hra : (w.base b).proton.release_after = some ra) (h0 : ra ≠ 0)
    (hge : ¬ now < ra)
    (hmid : ¬ now < ra + (w.base b).proton.post_release_duration)
    (hp : (w.base b).proton.particle = none) :
    ConjugateBase.update now b w = .error "TypeError: cannot read sprite of null" := by
  simp only [ConjugateBase.update, hra, hp]
  rw [if_neg h0, if_neg hge, if_neg hmid]

theorem BondInv_setProton_sprite (w : World) (p : Nat) (s : Sprite)
    (hInv : BondInv w) :
    BondInv (w.setProton p { w.protonObj p with sprite := s }) := by
  intro b' p'
  rw [World.setProton_base]
  by_cases hp' : p' = p
  · subst hp'
    rw [World.setProton_protonObj_self]
    exact hInv b' p'
  · rw [World.setProton_protonObj_ne _ _ hp']
    exact hInv b' p'

theorem BondInv_setBase_sprite (w : World) (b : Nat) (s : Sprite)
    (hInv : BondInv w) :
    BondInv (w.setBase b { w.base b with sprite := s }) := by
  intro b' p'
  rw [World.setBase_protonObj]
  by_cases hb' : b' = b
  · subst hb'
    rw [World.setBase_base_self]
    exact hInv b' p'
  · rw [World.setBase_base_ne _ _ hb']
    exact hInv b' p'

theorem update_preserves_BondInv (now : ℚ) (b : Nat) (w w2 : World)
    (hInv : BondInv w) (h : ConjugateBase.update now b w = .ok w2) : BondInv w2 := by
  cases hra : (w.base b).proton.release_after with
  | none =>
    rw [update_no_record now b w hra] at h
    cases h
    exact hInv
  | some ra =>
    by_cases h0 : ra = 0
    · subst h0
      rw [update_zero_timestamp now b w hra] at h
      cases h
      exact hInv
    · by_cases hlt : now < ra
      · cases hp : (w.base b).proton.particle with
        | none =>
          rw [update_bonded_dangling now ra b w hra h0 hlt hp] at h
          cases h
        | some p =>
          rw [update_bonded now ra b p w hra h0 hlt hp] at h
          cases h
          exact BondInv_setProton_sprite w p _ hInv
      · by_cases hmid : now < ra + (w.base b).proton.post_release_duration
        · rw [update_releasing now ra b w hra h0 hlt hmid] at h
          cases h
          exact hInv
        · cases hp : (w.base b).proton.particle with
          | none =>
            rw [update_release_dangling now ra b w hra h0 hlt hmid hp] at h
            cases h
          | some p =>
            rw [update_release_complete now ra b p w hra h0 hlt hmid hp] at h
            cases h
            intro b' p'
            by_cases hb' : b' = b
            · subst hb'
              rw [World.setBase_base_self]
              by_cases hp' : p' = p
              · subst hp'
                rw [World.setBase_protonObj, World.setProton_protonObj_self]
                simp
              · rw [World.setBase_protonObj, World.setProton_protonObj_ne _ _ hp']
                have hr := (hInv b' p').symm
                rw [hp] at hr
                constructor
                · intro hx
                  simp at hx
                · intro hx
                  have := hr.mp hx
                  exact absurd (Option.some.inj this) (fun he => hp' he.symm)
            · rw [World.setBase_base_ne _ _ hb', World.setProton_base]
              by_cases hp' : p' = p
              · subst hp'
                rw [World.setBase_protonObj, World.setProton_protonObj_self]
                have hl := hInv b' p'
                have hbb := (hInv b p').mp hp
                constructor
                · intro hx
                  have := hl.mp hx
                  rw [hbb] at this
                  exact absurd (Option.some.inj this) (fun he => hb' he.symm)
                · intro hx
                  simp at hx
              · rw [World.setBase_protonObj, World.setProton_protonObj_ne _ _ hp']
                exact hInv b' p'

theorem foldl_react_preserves_BondInv (env : StepEnv) (b : Nat) :
    ∀ (ps : List Nat) (w : World), BondInv w →
      BondInv (ps.foldl (fun w2 p =>
        if env.ovSprite ((w2.base b).sprite) ((w2.protonObj p).sprite) then
          ConjugateBase.reactsWith_Proton env.now (env.rand b p) b p w2
        else w2) w) := by
  intro ps
  induction ps with
  | nil => intro w h; exact h
  | cons p rest ih =>
    intro w hInv
    simp only [List.foldl_cons]
    apply ih
    by_cases hov : env.ovSprite ((w.base b).sprite) ((w.protonObj p).sprite) = true
    · rw [if_pos hov]
      exact reactsWith_Proton_preserves_BondInv _ _ _ _ _ hInv
    · rw [if_neg hov]
      exact hInv

theorem resolve_preserves_BondInv (env : StepEnv) (b : Nat) (w : World)
    (hInv : BondInv w) : BondInv (Beaker.sprite_resolve_collisions_base env b w) := by
  unfold Beaker.sprite_resolve_collisions_base
  cases hg : lookupAssoc env.groups "Proton" with
  | none => exact hInv
  | some ps => exact foldl_react_preserves_BondInv env b ps w hInv

theorem stepOne_preserves_BondInv (env : StepEnv) (w w2 : World) (r : PRef)
    (hInv : BondInv w) (h : Beaker.stepOne env w r = .ok w2) : BondInv w2 := by
  cases r with
  | base b =>
    unfold Beaker.stepOne at h
    exact update_preserves_BondInv env.now b _ w2
      (resolve_preserves_BondInv env b _ (BondInv_setBase_sprite w b _ hInv)) h
  | proton p =>
    unfold Beaker.stepOne at h
    cases h
    exact BondInv_setProton_sprite w p _ hInv

theorem update_particles_preserves_BondInv (env : StepEnv) :
    ∀ (order : List PRef) (w w2 : World), BondInv w →
      Beaker.update_particles env order w = .ok w2 → BondInv w2 := by
  intro order
  induction order with
  | nil =>
    intro w w2 hInv h
    cases h
    exact hInv
  | cons r rest ih =>
    intro w w2 hInv h
    unfold Beaker.update_particles at h
    cases hs : Beaker.stepOne env w r with
    | error e => rw [hs] at h; cases h
    | ok w1 =>
      rw [hs] at h
      exact ih w1 w2 (stepOne_preserves_BondInv env w w1 r hInv hs) h

theorem resolve_no_group (env : StepEnv) (b : Nat) (w : World)
    (hg : lookupAssoc env.groups "Proton" = none) :
    Beaker.sprite_resolve_collisions_base env b w = w := by
  unfold Beaker.sprite_resolve_collisions_base
  rw [hg]

theorem stepOne_base_eq (env : StepEnv) (b : Nat) (w : World) :
    Beaker.stepOne env w (.base b) =
      ConjugateBase.update env.now b
        (Beaker.sprite_resolve_collisions_base env b
          (w.setBase b { w.base b with sprite :=
            (Beaker.sprite_boundary_update env.ovPoint env.min_x env.min_y env.max_x
              env.max_y (w.base b).sprite) })) := rfl

theorem stepOne_proton_eq (env : StepEnv) (p : Nat) (w : World) :
    Beaker.stepOne env w (.proton p) =
      .ok (w.setProton p { w.protonObj p with sprite :=
        (Beaker.sprite_boundary_update env.ovPoint env.min_x env.min_y env.max_x
          env.max_y (w.protonObj p).sprite) }) := rfl

theorem setBase_sprite_proton (w : World) (b : Nat) (s : Sprite) (j : Nat) :
    ((w.setBase b { w.base b with sprite := s }).base j).proton = (w.base j).proton := by
  by_cases hj : j = b
  · subst hj
    rw [World.setBase_base_self]
  · rw [World.setBase_base_ne _ _ hj]

theorem update_particles_bases_only (env : StepEnv)
    (hg : lookupAssoc env.groups "Proton" = none) :
    ∀ (order : List PRef) (w : World),
      (∀ r ∈ order, ∃ b, r = PRef.base b) →
      (∀ j, (w.base j).proton.release_after = none) →
      ∃ w2, Beaker.update_particles env order w = .ok w2 ∧
        (∀ j, (w2.base j).proton = (w.base j).proton) ∧
        (∀ j, w2.protonObj j = w.protonObj j) := by
  intro order
  induction order with
  | nil =>
    intro w _ _
    exact ⟨w, rfl, fun j => rfl, fun j => rfl⟩
  | cons r rest ih =>
    intro w hord hra
    obtain ⟨b, rfl⟩ := hord r (List.mem_cons_self r rest)
    have hstep : Beaker.stepOne env w (.base b) = .ok (w.setBase b { w.base b with sprite :=
        (Beaker.sprite_boundary_update env.ovPoint env.min_x env.min_y env.max_x
          env.max_y (w.base b).sprite) }) := by
      rw [stepOne_base_eq, resolve_no_group env b _ hg]
      exact update_no_record env.now b _ (by rw [setBase_sprite_proton]; exact hra b)
    obtain ⟨w2, h1, h2, h3⟩ := ih _ (fun r hr => hord r (List.mem_cons_of_mem _ hr))
      (fun j => by rw [setBase_sprite_proton]; exact hra j)
    refine ⟨w2, ?_, ?_, ?_⟩
    · unfold Beaker.update_particles
      rw [hstep]
      exact h1
    · intro j
      rw [h2 j, setBase_sprite_proton]
    · intro j
      rw [h3 j]
      rfl

/-- Claim C1: for every collision delivered to the ConjugateBase's Proton
reaction handler, a new bond is created (both reference fields set, pointing
at each other) if and only if the proton has no current base
(`proton.base.particle` is none) and the base has no current proton
(`base.proton.particle` is none); when either side is already bonded the
handler returns the heap entirely unchanged — a no-op, not an error. -/
theorem C1_reaction_bonds_iff_both_free (now rand : ℚ) (b p : Nat) (w : World) :
    ((w.protonObj p).base_particle = none ∧ (w.base b).proton.particle = none →
      ((ConjugateBase.reactsWith_Proton now rand b p w).base b).proton.particle = some p ∧
      ((ConjugateBase.reactsWith_Proton now rand b p w).protonObj p).base_particle = some b) ∧
    (¬((w.protonObj p).base_particle = none ∧ (w.base b).proton.particle = none) →
      ConjugateBase.reactsWith_Proton now rand b p w = w) := by
  constructor
  · intro hc
    rw [reactsWith_Proton_pos now rand b p w hc.1 hc.2]
    constructor
    · rw [World.setProton_base, World.setBase_base_self]
    · rw [World.setProton_protonObj_self]
  · intro hc
    exact reactsWith_Proton_neg now rand b p w hc

/-- Witness for C1: in `exampleWorld` both base 0 and proton 0 are free, and
the reaction creates the mutual bond references. -/
theorem C1_reaction_bonds_iff_both_free_witness :
    ((ConjugateBase.reactsWith_Proton 0 0 0 0 exampleWorld).base 0).proton.particle = some 0 ∧
    ((ConjugateBase.reactsWith_Proton 0 0 0 0 exampleWorld).protonObj 0).base_particle = some 0 :=
  (C1_reaction_bonds_iff_both_free 0 0 0 0 exampleWorld).1 ⟨rfl, rfl⟩

/-- Claim C4: bond references are symmetric at every point where the
reaction handler, ConjugateBase.update or Beaker.step returns — a base
references a proton exactly when that proton references it back — and no
two ConjugateBase instances reference the same Proton. -/
theorem C4_bond_symmetry (env : StepEnv) (now rand : ℚ) (b p b1 b2 : Nat)
    (order : List PRef) (w w1 w2 : World) (hInv : BondInv w) :
    BondInv (ConjugateBase.reactsWith_Proton now rand b p w) ∧
    (ConjugateBase.update now b w = .ok w1 → BondInv w1) ∧
    (Beaker.step env order w = .ok w2 → BondInv w2) ∧
    ((w.base b1).proton.particle = some p → (w.base b2).proton.particle = some p →
      b1 = b2) := by
  refine ⟨reactsWith_Proton_preserves_BondInv now rand b p w hInv,
    fun h => update_preserves_BondInv now b w w1 hInv h,
    fun h => update_particles_preserves_BondInv env order w w2 hInv h,
    fun hA hB => ?_⟩
  have h1 := (hInv b1 p).mp hA
  have h2 := (hInv b2 p).mp hB
  rw [h1] at h2
  exact Option.some.inj h2

/-- Witness for C4: the all-free heap satisfies the symmetry invariant, and
the handler preserves it. -/
theorem C4_bond_symmetry_witness :
    BondInv exampleWorld ∧
    BondInv (ConjugateBase.reactsWith_Proton 0 0 0 0 exampleWorld) := by
  have hInv : BondInv exampleWorld := by
    intro b p
    simp [exampleWorld, exampleBase, exampleProton, ConjugateBase.initProtonHash]
  exact ⟨hInv,
    (C4_bond_symmetry exampleEnv 0 0 0 0 0 0 [] exampleWorld exampleWorld exampleWorld hInv).1⟩

/-- Claim C10: during collision resolution, a type named in a particle's
reacts_with table that has no group in the beaker is skipped — resolution is
the identity, so no reaction fires — and stepping a beaker containing only
ConjugateBase sprites (none of which carries a bond record, the situation
when no Proton was ever added) succeeds without error and without touching
any bond state. -/
theorem C10_missing_group_skipped_step_safe (env : StepEnv) (order : List PRef)
    (w : World) (hg : lookupAssoc env.groups "Proton" = none)
    (hord : ∀ r ∈ order, ∃ b, r = PRef.base b)
    (hra : ∀ j, (w.base j).proton.release_after = none) :
    (∀ (b : Nat) (w0 : World), Beaker.sprite_resolve_collisions_base env b w0 = w0) ∧
    (∃ w2, Beaker.step env order w = .ok w2 ∧
      (∀ j, (w2.base j).proton = (w.base j).proton) ∧
      (∀ j, w2.protonObj j = w.protonObj j)) :=
  ⟨fun b w0 => resolve_no_group env b w0 hg,
    update_particles_bases_only env hg order w hord hra⟩

/-- Witness for C10: a beaker with a single never-bonded ConjugateBase and
no "Proton" group steps without error and leaves all bond state alone. -/
theorem C10_missing_group_skipped_step_safe_witness :
    ∃ w2, Beaker.step noProtonEnv [PRef.base 0] exampleWorld = .ok w2 ∧
      (∀ j, (w2.base j).proton = (exampleWorld.base j).proton) ∧
      (∀ j, w2.protonObj j = exampleWorld.protonObj j) :=
  (C10_missing_group_skipped_step_safe noProtonEnv [PRef.base 0] exampleWorld (by decide)
    (fun r hr => ⟨0, by simpa using hr⟩) (fun j => rfl)).2

/-- Counterexample to C2 as stated: a bond formed at clock 0 with random
draw 0 (admissible: the clock is injectable and `Math.random()` can return
0) gets `release_after = 0 + 0 + 5000 * 0 = 0`.  The claim then puts the
transition to Free at exactly time 0 + 750, but at clock 750 `update` is a
no-op — `if (proton.release_after)` is falsy at 0 — so both reference
fields are still set and the bond never transitions. -/
theorem C2_zero_timestamp_cex :
    ((zeroReleaseWorld.base 0).proton.release_after = some 0) ∧
    ((0:ℚ) + (zeroReleaseWorld.base 0).proton.post_release_duration ≤ 750) ∧
    ConjugateBase.update 750 0 zeroReleaseWorld = .ok zeroReleaseWorld ∧
    ((zeroReleaseWorld.base 0).proton.particle = some 0) ∧
    ((zeroReleaseWorld.protonObj 0).base_particle = some 0) := by
  have hch := reactsWith_Proton_pos 0 0 0 0 exampleWorld rfl rfl
  have hbase0 : (zeroReleaseWorld.base 0).proton =
      { (exampleWorld.base 0).proton with
          release_after := some (0 + (exampleWorld.base 0).proton.release_after_range.1 +
            (exampleWorld.base 0).proton.release_after_range.2 * 0)
          particle := some 0
          restore_depth := (exampleWorld.protonObj 0).sprite.depth } := by
    show ((ConjugateBase.reactsWith_Proton 0 0 0 0 exampleWorld).base 0).proton = _
    rw [hch, World.setProton_base, World.setBase_base_self]
  have h1 : (zeroReleaseWorld.base 0).proton.release_after = some 0 := by
    rw [hbase0]
    show some (0 + (exampleWorld.base 0).proton.release_after_range.1 +
      (exampleWorld.base 0).proton.release_after_range.2 * 0) = some 0
    norm_num [exampleWorld, exampleBase, ConjugateBase.initProtonHash]
  refine ⟨h1, ?_, update_zero_timestamp 750 0 zeroReleaseWorld h1, ?_, ?_⟩
  · rw [hbase0]
    show (0:ℚ) + (exampleWorld.base 0).proton.post_release_duration ≤ 750
    norm_num [exampleWorld, exampleBase, ConjugateBase.initProtonHash]
  · rw [hbase0]
  · show ((ConjugateBase.reactsWith_Proton 0 0 0 0 exampleWorld).protonObj 0).base_particle
      = some 0
    rw [hch, World.setProton_protonObj_self]

/-- Claim C2 (amended): when a bond forms at clock `now` with drawn random
fraction `rand`, the base's release_after is set to exactly
`now + release_after_range[0] + release_after_range[1] * rand` — range[0]
plus a uniformly scaled range[1], not a [min,max] interpolation — and,
provided that computed timestamp is nonzero (the update's JS truthiness
test treats a zero timestamp as no bond), the bond transitions to Releasing
exactly at that time (before it the pair is still bonded and updating,
from it update leaves the heap untouched) and to Free exactly
post_release_duration after it. -/
theorem C2_release_after_formula_and_timing (now rand t ra post : ℚ) (b p : Nat)
    (w : World)
    (h1 : (w.protonObj p).base_particle = none)
    (h2 : (w.base b).proton.particle = none)
    (hra : ra = now + (w.base b).proton.release_after_range.1 +
      (w.base b).proton.release_after_range.2 * rand)
    (hpost : post = (w.base b).proton.post_release_duration)
    (hpost0 : 0 ≤ post) :
    ((ConjugateBase.reactsWith_Proton now rand b p w).base b).proton.release_after =
      some ra ∧
    (ra ≠ 0 →
      (t < ra → ∃ w2,
        ConjugateBase.update t b (ConjugateBase.reactsWith_Proton now rand b p w) =
          .ok w2 ∧
        (w2.base b).proton.particle = some p ∧
        (w2.base b).proton.release_after = some ra ∧
        (w2.protonObj p).base_particle = some b) ∧
      (ra ≤ t → t < ra + post →
        ConjugateBase.update t b (ConjugateBase.reactsWith_Proton now rand b p w) =
          .ok (ConjugateBase.reactsWith_Proton now rand b p w)) ∧
      (ra + post ≤ t → ∃ w2,
        ConjugateBase.update t b (ConjugateBase.reactsWith_Proton now rand b p w) =
          .ok w2 ∧
        (w2.base b).proton.particle = none ∧
        (w2.base b).proton.release_after = none ∧
        (w2.protonObj p).base_particle = none)) := by
  have hbase : ((ConjugateBase.reactsWith_Proton now rand b p w).base b).proton =
      { (w.base b).proton with
          release_after := some ra
          particle := some p
          restore_depth := (w.protonObj p).sprite.depth } := by
    rw [reactsWith_Proton_pos now rand b p w h1 h2, World.setProton_base,
      World.setBase_base_self, hra]
  have hproton : ((ConjugateBase.reactsWith_Proton now rand b p w).protonObj p) =
      { w.protonObj p with
          base_particle := some b
          sprite := { (w.protonObj p).sprite with
            depth := some (jsNum (w.base b).sprite.depth + 0.5) } } := by
    rw [reactsWith_Proton_pos now rand b p w h1 h2, World.setProton_protonObj_self]
  have hra1 : ((ConjugateBase.reactsWith_Proton now rand b p w).base b).proton.release_after
      = some ra := by rw [hbase]
  have hp1 : ((ConjugateBase.reactsWith_Proton now rand b p w).base b).proton.particle
      = some p := by rw [hbase]
  refine ⟨hra1, fun h0 => ⟨?_, ?_, ?_⟩⟩
  · intro hlt
    refine ⟨_, update_bonded t ra b p _ hra1 h0 hlt hp1, ?_, ?_, ?_⟩
    · rw [World.setProton_base, hp1]
    · rw [World.setProton_base, hra1]
    · rw [World.setProton_protonObj_self]
      show ((ConjugateBase.reactsWith_Proton now rand b p w).protonObj p).base_particle
        = some b
      rw [hproton]
  · intro hge hmid
    refine update_releasing t ra b _ hra1 h0 (not_lt.mpr hge) ?_
    rw [hbase]
    show t < ra + (w.base b).proton.post_release_duration
    rw [← hpost]
    exact hmid
  · intro hge
    have hmid : ¬ t < ra +
        ((ConjugateBase.reactsWith_Proton now rand b p w).base b).proton.post_release_duration := by
      rw [hbase]
      show ¬ t < ra + (w.base b).proton.post_release_duration
      rw [← hpost]
      exact not_lt.mpr hge
    have hge1 : ¬ t < ra :=
      not_lt.mpr (le_trans (le_add_of_nonneg_right hpost0) hge)
    refine ⟨_, update_release_complete t ra b p _ hra1 h0 hge1 hmid hp1, ?_, ?_, ?_⟩
    · rw [World.setBase_base_self]
    · rw [World.setBase_base_self]
    · rw [World.setBase_protonObj, World.setProton_protonObj_self]

/-- Witness for C2's amended theorem: a bond formed at clock 1 with random
draw 0 gets release_after = 1, and before time 1 the pair is still bonded. -/
theorem C2_release_after_formula_and_timing_witness :
    ((ConjugateBase.reactsWith_Proton 1 0 0 0 exampleWorld).base 0).proton.release_after =
      some 1 ∧
    ∃ w2, ConjugateBase.update 0 0 (ConjugateBase.reactsWith_Proton 1 0 0 0 exampleWorld) =
        .ok w2 ∧ (w2.base 0).proton.particle = some 0 := by
  have h := C2_release_after_formula_and_timing 1 0 0 1 750 0 0 exampleWorld rfl rfl
    (by norm_num [exampleWorld, exampleBase, ConjugateBase.initProtonHash]) rfl (by norm_num)
  refine ⟨h.1, ?_⟩
  obtain ⟨w2, heq, hp, -, -⟩ := (h.2 (by norm_num)).1 (by norm_num)
  exact ⟨w2, heq, hp⟩

/-- Counterexample to C3 as stated: a bond record whose release_after is the
timestamp 0 — non-null, as produced by a bond formed at clock 0 with random
draw 0 — is skipped by the JS truthiness test `if (proton.release_after)`,
so at clock 800 (which is past release_after + post_release_duration = 750)
update does NOT restore the draw depth or clear the bond references: it is a
no-op, both references are still set. -/
theorem C3_zero_timestamp_update_noop_cex :
    (bondedZeroWorld.base 0).proton.release_after = some 0 ∧
    (0:ℚ) + (bondedZeroWorld.base 0).proton.post_release_duration ≤ 800 ∧
    ConjugateBase.update 800 0 bondedZeroWorld = .ok bondedZeroWorld ∧
    (bondedZeroWorld.base 0).proton.particle = some 0 ∧
    (bondedZeroWorld.protonObj 0).base_particle = some 0 := by
  have h1 : (bondedZeroWorld.base 0).proton.release_after = some 0 := rfl
  refine ⟨h1, ?_, update_zero_timestamp 800 0 bondedZeroWorld h1, rfl, rfl⟩
  show (0:ℚ) + 750 ≤ 800
  norm_num

/-- Claim C3 (amended): on every update tick while a bond record exists —
release_after non-null AND nonzero, since the code's truthiness test treats
a zero timestamp as no record — for the bonded proton `p`: while
now < release_after the proton's position is set to the base's position plus
the bond offset (offset_x = 10, offset_y = -10, the constructor's values)
and no bond state changes; while release_after ≤ now <
release_after + post_release_duration the heap is left untouched (the proton
moves freely while still referenced); and once now ≥
release_after + post_release_duration the update restores the proton's
original draw depth, clears both sides' bond references, and clears
release_after. -/
theorem C3_update_bond_phases (now ra : ℚ) (b p : Nat) (w : World)
    (hra : (w.base b).proton.release_after = some ra) (h0 : ra ≠ 0)
    (hp : (w.base b).proton.particle = some p)
    (hoffx : (w.base b).proton.offset_x = 10)
    (hoffy : (w.base b).proton.offset_y = -10)
    (hpost0 : 0 ≤ (w.base b).proton.post_release_duration) :
    (now < ra → ∃ w2, ConjugateBase.update now b w = .ok w2 ∧
      (w2.protonObj p).sprite.pos_x = (w.base b).sprite.pos_x + 10 ∧
      (w2.protonObj p).sprite.pos_y = (w.base b).sprite.pos_y + (-10) ∧
      (w2.base b).proton = (w.base b).proton ∧
      (w2.protonObj p).base_particle = (w.protonObj p).base_particle) ∧
    (ra ≤ now → now < ra + (w.base b).proton.post_release_duration →
      ConjugateBase.update now b w = .ok w) ∧
    (ra + (w.base b).proton.post_release_duration ≤ now →
      ∃ w2, ConjugateBase.update now b w = .ok w2 ∧
        (w2.protonObj p).sprite.depth = (w.base b).proton.restore_depth ∧
        (w2.base b).proton.restore_depth = none ∧
        (w2.base b).proton.particle = none ∧
        (w2.base b).proton.release_after = none ∧
        (w2.protonObj p).base_particle = none) := by
  refine ⟨?_, ?_, ?_⟩
  · intro hlt
    refine ⟨_, update_bonded now ra b p w hra h0 hlt hp, ?_, ?_, ?_, ?_⟩
    · rw [World.setProton_protonObj_self]
      show (w.base b).sprite.pos_x + (w.base b).proton.offset_x =
        (w.base b).sprite.pos_x + 10
      rw [hoffx]
    · rw [World.setProton_protonObj_self]
      show (w.base b).sprite.pos_y + (w.base b).proton.offset_y =
        (w.base b).sprite.pos_y + (-10)
      rw [hoffy]
    · rw [World.setProton_base]
    · rw [World.setProton_protonObj_self]
  · intro hge hmid
    exact update_releasing now ra b w hra h0 (not_lt.mpr hge) hmid
  · intro hge
    have hge1 : ¬ now < ra :=
      not_lt.mpr (le_trans (le_add_of_nonneg_right hpost0) hge)
    have hmid : ¬ now < ra + (w.base b).proton.post_release_duration :=
      not_lt.mpr hge
    refine ⟨_, update_release_complete now ra b p w hra h0 hge1 hmid hp, ?_, ?_, ?_, ?_, ?_⟩
    · rw [World.setBase_protonObj, World.setProton_protonObj_self]
    · rw [World.setBase_base_self]
    · rw [World.setBase_base_self]
    · rw [World.setBase_base_self]
    · rw [World.setBase_protonObj, World.setProton_protonObj_self]

/-- Witness for C3's amended theorem: in `bondedWorld` (release_after 100)
at clock 0 the proton is slaved to the base position plus (10, -10). -/
theorem C3_update_bond_phases_witness :
    ∃ w2, ConjugateBase.update 0 0 bondedWorld = .ok w2 ∧
      (w2.protonObj 0).sprite.pos_x = (bondedWorld.base 0).sprite.pos_x + 10 ∧
      (w2.protonObj 0).sprite.pos_y = (bondedWorld.base 0).sprite.pos_y + (-10) ∧
      (w2.base 0).proton = (bondedWorld.base 0).proton ∧
      (w2.protonObj 0).base_particle = (bondedWorld.protonObj 0).base_particle :=
  (C3_update_bond_phases 0 100 0 0 bondedWorld rfl (by norm_num) rfl rfl rfl
    (show (0:ℚ) ≤ 750 by norm_num)).1 (by norm_num)

/-- Counterexample to C5 as stated: with the p5.play circular point-overlap
test, a sprite of collider radius 16 centered at x = 2 inside a solution
spanning x in [0, 4] overlaps BOTH the left and the right boundary points.
The claim says overlapping the right boundary (max_x = 4) forces the
x-velocity non-positive, but the else-if chain gives the left check
priority: the resulting velocity is |3| = 3 > 0. -/
theorem C5_both_boundaries_cex :
    circleOvPoint wideSprite.radius wideSprite.pos_x wideSprite.pos_y 4 wideSprite.pos_y
      = true ∧
    (Beaker.sprite_boundary_update circleOvPoint 0 0 4 100 wideSprite).vel_x = 3 ∧
    ¬((3:ℚ) ≤ 0) := by
  refine ⟨by norm_num [circleOvPoint, wideSprite], ?_, by norm_num⟩
  show (Beaker.sprite_boundary_update circleOvPoint 0 0 4 100 wideSprite).vel_x = 3
  rw [Beaker.sprite_boundary_update]
  norm_num [circleOvPoint, wideSprite]

/-- Claim C5 (amended): in Beaker.step's boundary reflection, for every
sprite, position and radius are untouched, and: overlapping the left
boundary point forces the x-velocity to |vx| (non-negative); overlapping the
right boundary point while NOT overlapping the left forces it to -|vx|
(non-positive) — the two x-checks form an else-if chain in which the left
check wins when a sprite overlaps both; likewise the top boundary forces the
y-velocity non-negative and the bottom boundary, absent top overlap, forces
it non-positive.  Each velocity component is determined by its own axis's
overlap flags alone, so both components may flip in the same tick. -/
theorem C5_boundary_reflection_priority (ov : ℚ → ℚ → ℚ → ℚ → ℚ → Bool)
    (mnx mny mxx mxy : ℚ) (s : Sprite) :
    (Beaker.sprite_boundary_update ov mnx mny mxx mxy s).pos_x = s.pos_x ∧
    (Beaker.sprite_boundary_update ov mnx mny mxx mxy s).pos_y = s.pos_y ∧
    (Beaker.sprite_boundary_update ov mnx mny mxx mxy s).radius = s.radius ∧
    (ov s.radius s.pos_x s.pos_y mnx s.pos_y = true →
      (Beaker.sprite_boundary_update ov mnx mny mxx mxy s).vel_x = |s.vel_x|) ∧
    (ov s.radius s.pos_x s.pos_y mnx s.pos_y = false →
      ov s.radius s.pos_x s.pos_y mxx s.pos_y = true →
      (Beaker.sprite_boundary_update ov mnx mny mxx mxy s).vel_x = -|s.vel_x|) ∧
    (ov s.radius s.pos_x s.pos_y mnx s.pos_y = false →
      ov s.radius s.pos_x s.pos_y mxx s.pos_y = false →
      (Beaker.sprite_boundary_update ov mnx mny mxx mxy s).vel_x = s.vel_x) ∧
    (ov s.radius s.pos_x s.pos_y s.pos_x mny = true →
      (Beaker.sprite_boundary_update ov mnx mny mxx mxy s).vel_y = |s.vel_y|) ∧
    (ov s.radius s.pos_x s.pos_y s.pos_x mny = false →
      ov s.radius s.pos_x s.pos_y s.pos_x mxy = true →
      (Beaker.sprite_boundary_update ov mnx mny mxx mxy s).vel_y = -|s.vel_y|) ∧
    (ov s.radius s.pos_x s.pos_y s.pos_x mny = false →
      ov s.radius s.pos_x s.pos_y s.pos_x mxy = false →
      (Beaker.sprite_boundary_update ov mnx mny mxx mxy s).vel_y = s.vel_y) := by
  unfold Beaker.sprite_boundary_update
  by_cases hL : ov s.radius s.pos_x s.pos_y mnx s.pos_y = true <;>
    by_cases hR : ov s.radius s.pos_x s.pos_y mxx s.pos_y = true <;>
    by_cases hT : ov s.radius s.pos_x s.pos_y s.pos_x mny = true <;>
    by_cases hB : ov s.radius s.pos_x s.pos_y s.pos_x mxy = true <;>
    simp [hL, hR, hT, hB]

/-- Witness for C5's amended theorem: a sprite overlapping the left
boundary point gets its x-velocity forced to |vx|. -/
theorem C5_boundary_reflection_priority_witness :
    (Beaker.sprite_boundary_update circleOvPoint 0 0 100 100 exampleProtonSprite).vel_x =
      |exampleProtonSprite.vel_x| :=
  (C5_boundary_reflection_priority circleOvPoint 0 0 100 100 exampleProtonSprite).2.2.2.1
    (by norm_num [circleOvPoint, exampleProtonSprite])

theorem lookupAssoc_map {α β : Type} (f : α → β) :
    ∀ (l : List (String × α)) (key : String),
      lookupAssoc (l.map (fun kv => (kv.1, f kv.2))) key = (lookupAssoc l key).map f := by
  intro l key
  induction l with
  | nil => rfl
  | cons kv rest ih =>
    by_cases h : kv.1 = key
    · simp [lookupAssoc, h]
    · simp [lookupAssoc, h, ih]

theorem lookupAssoc_append {α : Type} :
    ∀ (l1 l2 : List (String × α)) (key : String), lookupAssoc l1 key = none →
      lookupAssoc (l1 ++ l2) key = lookupAssoc l2 key := by
  intro l1 l2 key
  induction l1 with
  | nil => intro _; rfl
  | cons kv rest ih =>
    intro h
    rw [lookupAssoc] at h
    by_cases hk : kv.1 = key
    · rw [if_pos hk] at h
      exact absurd h (by simp)
    · rw [if_neg hk] at h
      rw [List.cons_append, lookupAssoc, if_neg hk]
      exact ih h

theorem filter_ne_eq_self {g : List Nat} {idr : Nat} (h : idr ∉ g) :
    g.filter (fun x => decide (x ≠ idr)) = g := by
  induction g with
  | nil => rfl
  | cons a t ih =>
    have ha : a ≠ idr := fun he => h (by rw [he]; exact List.mem_cons_self _ _)
    have ht : idr ∉ t := fun hm => h (List.mem_cons_of_mem _ hm)
    rw [List.filter_cons_of_pos (by simpa using ha), ih ht]

theorem filter_ne_of_nodup :
    ∀ (g : List Nat) (i : Nat) (idr : Nat), g.Nodup → g[i]? = some idr →
      g.filter (fun x => decide (x ≠ idr)) = g.take i ++ g.drop (i + 1) := by
  intro g
  induction g with
  | nil => intro i idr _ h; simp at h
  | cons a t ih =>
    intro i idr hnd hg
    cases i with
    | zero =>
      have ha : a = idr := by simpa using hg
      subst ha
      have ht : a ∉ t := (List.nodup_cons.mp hnd).1
      rw [List.filter_cons_of_neg (by simp), filter_ne_eq_self ht]
      rfl
    | succ i =>
      have hg' : t[i]? = some idr := by simpa using hg
      have hmem : idr ∈ t := List.getElem?_mem hg'
      have hat : a ∉ t := (List.nodup_cons.mp hnd).1
      have ha : a ≠ idr := fun he => hat (he ▸ hmem)
      rw [List.filter_cons_of_pos (by simpa using ha),
        ih i idr (List.nodup_cons.mp hnd).2 hg']
      rfl

theorem lookupAssoc_remove (idr : Nat) (st : BeakerState) (key : String) :
    lookupAssoc (Particle.remove idr st).particles key =
      (lookupAssoc st.particles key).map (fun g => g.filter (fun x => decide (x ≠ idr))) :=
  lookupAssoc_map _ st.particles key

theorem removeLoop_ok (key : String) :
    ∀ (i : Nat) (st : BeakerState) (acc : List Nat) (g : List Nat),
      lookupAssoc st.particles key = some g → g.Nodup → i ≤ g.length →
      ∃ st2, Beaker.removeLoop key i st acc = .ok (st2, acc ++ (g.take i).reverse) ∧
        lookupAssoc st2.particles key = some (g.drop i) := by
  intro i
  induction i with
  | zero =>
    intro st acc g hg _ _
    refine ⟨st, ?_, by simpa using hg⟩
    show Except.ok (st, acc) = Except.ok (st, acc ++ (g.take 0).reverse)
    rw [List.take_zero, List.reverse_nil, List.append_nil]
  | succ i ih =>
    intro st acc g hg hnd hlen
    have hi : i < g.length := Nat.lt_of_succ_le hlen
    have hgi : g[i]? = some g[i] := List.getElem?_eq_getElem hi
    have hfil : g.filter (fun x => decide (x ≠ g[i])) = g.take i ++ g.drop (i + 1) :=
      filter_ne_of_nodup g i g[i] hnd hgi
    have hg1 : lookupAssoc (Particle.remove g[i] st).particles key =
        some (g.take i ++ g.drop (i + 1)) := by
      rw [lookupAssoc_remove, hg]
      show some (g.filter (fun x => decide (x ≠ g[i]))) = some (g.take i ++ g.drop (i + 1))
      rw [hfil]
    have hsub : (g.take i ++ g.drop (i + 1)).Sublist g := by
      conv_rhs => rw [← List.take_append_drop i g]
      exact List.Sublist.append (List.Sublist.refl _)
        (List.drop_sublist_drop_left g (Nat.le_succ i))
    have hnd1 : (g.take i ++ g.drop (i + 1)).Nodup := hsub.nodup hnd
    have htklen : (g.take i).length = i := by
      rw [List.length_take]
      exact Nat.min_eq_left hi.le
    have hlen1 : i ≤ (g.take i ++ g.drop (i + 1)).length := by
      simp only [List.length_append, htklen]
      omega
    obtain ⟨st2, hrun, hlook⟩ := ih (Particle.remove g[i] st) (acc ++ [g[i]]) _ hg1 hnd1 hlen1
    have htl : (g.take i ++ g.drop (i + 1)).take i = g.take i := List.take_left' htklen
    have hdl : (g.take i ++ g.drop (i + 1)).drop i = g.drop (i + 1) := List.drop_left' htklen
    rw [htl] at hrun
    rw [hdl] at hlook
    refine ⟨st2, ?_, hlook⟩
    have hstep : Beaker.removeLoop key (i + 1) st acc =
        Beaker.removeLoop key i (Particle.remove g[i] st) (acc ++ [g[i]]) := by
      conv_lhs => unfold Beaker.removeLoop
      simp only [hg, hgi]
    rw [hstep, hrun]
    have htk : g.take (i + 1) = g.take i ++ [g[i]] := by
      rw [List.take_succ, hgi]
      rfl
    rw [htk, List.reverse_append, List.reverse_singleton, List.append_assoc]

/-- Counterexample to C6 as stated: a beaker holding exactly the three
Proton sprites 0, 1, 2 (0 the oldest, 2 the most recently added).
`removeParticles(Proton, 1)` removes sprite 0 — the OLDEST — leaving the
group [1, 2]; the claim says the removed particle is the most recently
added one, which would be 2, leaving [0, 1]. -/
theorem C6_removes_oldest_cex :
    Beaker.removeParticles protonClass 1 exampleBeaker3 =
      .ok ({ particles := [("Proton", [1, 2])], all_particle_sprites := [1, 2], next_id := 3 },
        [0]) ∧
    ([0] : List Nat) ≠ [2] := by
  exact ⟨rfl, by decide⟩

/-- Claim C6 (amended): for every beaker whose group for the looked-up type
name holds exactly the (duplicate-free) sprites `g`, removeParticles
removes min(quantity, g.length) particles — clamped to the available count,
never an error — but the removed particles are the OLDEST ones (the lowest
indices): the loop `for (i = quantity; i > 0; i--) remove(get(i-1))` removes
indices q-1 down to 0, so the removed list is (g.take (min q n)).reverse and
the group retains the most recently added suffix g.drop (min q n).  Only
when quantity ≥ n does this coincide with most-recently-added-first
removal. -/
theorem C6_removeParticles_clamped_oldest_first (st : BeakerState)
    (cls : ParticleClass) (q : Nat) (g : List Nat)
    (hg : lookupAssoc st.particles cls.staticName = some g) (hnd : g.Nodup) :
    ∃ st2, Beaker.removeParticles cls q st =
        .ok (st2, (g.take (min q g.length)).reverse) ∧
      lookupAssoc st2.particles cls.staticName = some (g.drop (min q g.length)) := by
  have hq : (if g.length < q then g.length else q) = min q g.length := by
    rcases Nat.lt_or_ge g.length q with h | h
    · rw [if_pos h, Nat.min_eq_right h.le]
    · rw [if_neg (Nat.not_lt.mpr h), Nat.min_eq_left h]
  have hmain := removeLoop_ok cls.staticName (min q g.length) st [] g hg hnd
    (Nat.min_le_right q g.length)
  simp only [List.nil_append] at hmain
  simpa only [Beaker.removeParticles, hg, hq] using hmain

/-- Witness for C6's amended theorem at the concrete three-proton beaker. -/
theorem C6_removeParticles_clamped_oldest_first_witness :
    ∃ st2, Beaker.removeParticles protonClass 2 exampleBeaker3 =
        .ok (st2, (([0, 1, 2] : List Nat).take (min 2 3)).reverse) ∧
      lookupAssoc st2.particles "Proton" = some (([0, 1, 2] : List Nat).drop (min 2 3)) :=
  C6_removeParticles_clamped_oldest_first exampleBeaker3 protonClass 2 [0, 1, 2]
    (by decide) (by decide)

/-- Counterexample to C8 as stated: removeParticles on a particle type that
was never added to the beaker reads `.sprites` of an undefined group entry
and throws, rather than succeeding as a no-op. -/
theorem C8_missing_group_error_cex :
    Beaker.removeParticles protonClass 1 emptyBeaker =
      .error "TypeError: cannot read sprites of undefined" := rfl

/-- Claim C8 (amended): the Beaker and particle operations are total over
their documented domains EXCEPT removeParticles on a type with no group
entry (a type never passed to addParticles), which dereferences the absent
group and fails; whenever the looked-up group exists (with the
duplicate-free contents the engine maintains) removeParticles succeeds, as a
clamped removal or a no-op. -/
theorem C8_remove_total_on_existing_group (st : BeakerState) (cls : ParticleClass)
    (q : Nat) (g : List Nat)
    (hg : lookupAssoc st.particles cls.staticName = some g) (hnd : g.Nodup) :
    ∃ st2 removed, Beaker.removeParticles cls q st = .ok (st2, removed) := by
  have hq : (if g.length < q then g.length else q) = min q g.length := by
    rcases Nat.lt_or_ge g.length q with h | h
    · rw [if_pos h, Nat.min_eq_right h.le]
    · rw [if_neg (Nat.not_lt.mpr h), Nat.min_eq_left h]
  obtain ⟨st2, hrun, -⟩ := removeLoop_ok cls.staticName (min q g.length) st [] g hg hnd
    (Nat.min_le_right q g.length)
  refine ⟨st2, [] ++ (g.take (min q g.length)).reverse, ?_⟩
  simpa only [Beaker.removeParticles, hg, hq] using hrun

/-- Witness for C8's amended theorem: removing 1000 from a beaker with three
protons succeeds (clamped). -/
theorem C8_remove_total_on_existing_group_witness :
    ∃ st2 removed, Beaker.removeParticles protonClass 1000 exampleBeaker3 =
      .ok (st2, removed) :=
  C8_remove_total_on_existing_group exampleBeaker3 protonClass 1000 [0, 1, 2]
    (by decide) (by decide)

theorem randomPoint_none_iff (sol : Solution) (rx ry r : ℚ) :
    Beaker.randomPoint sol rx ry r = none ↔ (r * 2 ≥ sol.width ∨ r * 2 ≥ sol.height) := by
  unfold Beaker.randomPoint
  by_cases h : r * 2 ≥ sol.width ∨ r * 2 ≥ sol.height
  · simp [h]
  · simp [h]

theorem addParticlesLoop_reject (sol : Solution) (cls : ParticleClass)
    (rands : Nat → ℚ × ℚ)
    (hrej : ∀ rx ry, Beaker.randomPoint sol rx ry cls.collider_radius = none) :
    ∀ (q i : Nat) (st : BeakerState), Beaker.addParticlesLoop sol cls rands i q st = st := by
  intro q
  induction q with
  | zero => intro i st; rfl
  | succ q ih =>
    intro i st
    have hstep : Beaker.addParticlesLoop sol cls rands i (q + 1) st =
        Beaker.addParticlesLoop sol cls rands (i + 1) q st := by
      conv_lhs => unfold Beaker.addParticlesLoop
      simp only [hrej]
    rw [hstep]
    exact ih (i + 1) st

theorem lookupAssoc_map_other {α : Type} (f : String × α → String × α)
    (key : String) (hf : ∀ kv, kv.1 = key → f kv = kv) (hk : ∀ kv, (f kv).1 = kv.1) :
    ∀ l, lookupAssoc (l.map f) key = lookupAssoc l key := by
  intro l
  induction l with
  | nil => rfl
  | cons kv rest ih =>
    rw [List.map_cons, lookupAssoc, lookupAssoc, hk kv]
    by_cases h : kv.1 = key
    · rw [if_pos h, if_pos h, hf kv h]
    · rw [if_neg h, if_neg h]
      exact ih

theorem lookupAssoc_map_keyfix {α : Type} (f : String × α → String × α)
    (hf : ∀ kv, (f kv).1 = kv.1) :
    ∀ (l : List (String × α)) (key : String),
      (lookupAssoc (l.map f) key).isSome = (lookupAssoc l key).isSome := by
  intro l key
  induction l with
  | nil => rfl
  | cons kv rest ih =>
    rw [List.map_cons, lookupAssoc, lookupAssoc, hf kv]
    by_cases h : kv.1 = key
    · rw [if_pos h, if_pos h]
      rfl
    · rw [if_neg h, if_neg h]
      exact ih

theorem initParticleGroup_lookup_isSome (name : String) (st : BeakerState) :
    (lookupAssoc (Beaker.initParticleGroup name st).particles name).isSome = true := by
  unfold Beaker.initParticleGroup
  cases h : lookupAssoc st.particles name with
  | some g =>
    show (lookupAssoc st.particles name).isSome = true
    rw [h]
    rfl
  | none =>
    show (lookupAssoc (st.particles ++ [(name, [])]) name).isSome = true
    rw [lookupAssoc_append _ _ _ h, lookupAssoc, if_pos rfl]
    rfl

theorem addParticle_lookup_isSome (key k2 : String) (idr : Nat) (st : BeakerState) :
    (lookupAssoc (Beaker.addParticle k2 idr st).particles key).isSome =
      (lookupAssoc st.particles key).isSome :=
  lookupAssoc_map_keyfix _ (fun kv => by by_cases hk : kv.1 = k2 <;> simp [hk])
    st.particles key

theorem addParticle_lookup_other (key k2 : String) (hne : ¬ key = k2) (idr : Nat)
    (st : BeakerState) :
    lookupAssoc (Beaker.addParticle k2 idr st).particles key =
      lookupAssoc st.particles key :=
  lookupAssoc_map_other _ key
    (fun kv hkv => by
      have hn : ¬ kv.1 = k2 := by rw [hkv]; exact hne
      simp [hn])
    (fun kv => by by_cases hk : kv.1 = k2 <;> simp [hk]) st.particles

theorem addParticlesLoop_lookup_isSome (sol : Solution) (cls : ParticleClass)
    (rands : Nat → ℚ × ℚ) (key : String) :
    ∀ (q i : Nat) (st : BeakerState),
      (lookupAssoc st.particles key).isSome = true →
      (lookupAssoc (Beaker.addParticlesLoop sol cls rands i q st).particles key).isSome
        = true := by
  intro q
  induction q with
  | zero => intro i st h; exact h
  | succ q ih =>
    intro i st h
    cases hr : Beaker.randomPoint sol (rands i).1 (rands i).2 cls.collider_radius with
    | some pt =>
      have hstep : Beaker.addParticlesLoop sol cls rands i (q + 1) st =
          Beaker.addParticlesLoop sol cls rands (i + 1) q
            (Beaker.addParticle cls.protoName st.next_id
              { st with next_id := st.next_id + 1 }) := by
        conv_lhs => unfold Beaker.addParticlesLoop
        simp only [hr]
      rw [hstep]
      refine ih (i + 1) _ ?_
      rw [addParticle_lookup_isSome]
      exact h
    | none =>
      have hstep : Beaker.addParticlesLoop sol cls rands i (q + 1) st =
          Beaker.addParticlesLoop sol cls rands (i + 1) q st := by
        conv_lhs => unfold Beaker.addParticlesLoop
        simp only [hr]
      rw [hstep]
      exact ih (i + 1) st h

theorem addParticlesLoop_lookup_other (sol : Solution) (cls : ParticleClass)
    (rands : Nat → ℚ × ℚ) (key : String) (hne : ¬ key = cls.protoName) :
    ∀ (q i : Nat) (st : BeakerState),
      lookupAssoc (Beaker.addParticlesLoop sol cls rands i q st).particles key =
        lookupAssoc st.particles key := by
  intro q
  induction q with
  | zero => intro i st; rfl
  | succ q ih =>
    intro i st
    cases hr : Beaker.randomPoint sol (rands i).1 (rands i).2 cls.collider_radius with
    | some pt =>
      have hstep : Beaker.addParticlesLoop sol cls rands i (q + 1) st =
          Beaker.addParticlesLoop sol cls rands (i + 1) q
            (Beaker.addParticle cls.protoName st.next_id
              { st with next_id := st.next_id + 1 }) := by
        conv_lhs => unfold Beaker.addParticlesLoop
        simp only [hr]
      rw [hstep, ih (i + 1) _,
        addParticle_lookup_other key cls.protoName hne st.next_id
          { st with next_id := st.next_id + 1 }]
    | none =>
      have hstep : Beaker.addParticlesLoop sol cls rands i (q + 1) st =
          Beaker.addParticlesLoop sol cls rands (i + 1) q st := by
        conv_lhs => unfold Beaker.addParticlesLoop
        simp only [hr]
      rw [hstep]
      exact ih (i + 1) st

theorem removeLoop_preserves_other_group (key pk : String) (gp : List Nat) :
    ∀ (i : Nat) (st : BeakerState) (acc : List Nat) (st2 : BeakerState)
      (removed : List Nat),
      Beaker.removeLoop key i st acc = .ok (st2, removed) →
      lookupAssoc st.particles pk = some gp →
      (∀ gcur, lookupAssoc st.particles key = some gcur → ∀ x ∈ gcur, x ∉ gp) →
      lookupAssoc st2.particles pk = some gp := by
  intro i
  induction i with
  | zero =>
    intro st acc st2 removed h hpk _
    rw [show Beaker.removeLoop key 0 st acc = .ok (st, acc) from rfl] at h
    simp only [Except.ok.injEq, Prod.mk.injEq] at h
    obtain ⟨h1, -⟩ := h
    rw [← h1]
    exact hpk
  | succ i ih =>
    intro st acc st2 removed h hpk hdisj
    cases hk : lookupAssoc st.particles key with
    | none =>
      have herr : Beaker.removeLoop key (i + 1) st acc =
          .error "TypeError: cannot read sprites of undefined" := by
        conv_lhs => unfold Beaker.removeLoop
        simp only [hk]
      rw [herr] at h
      cases h
    | some g =>
      cases hgi : g[i]? with
      | none =>
        have herr : Beaker.removeLoop key (i + 1) st acc =
            .error "TypeError: cannot read particle of undefined" := by
          conv_lhs => unfold Beaker.removeLoop
          simp only [hk, hgi]
        rw [herr] at h
        cases h
      | some idr =>
        have hstep : Beaker.removeLoop key (i + 1) st acc =
            Beaker.removeLoop key i (Particle.remove idr st) (acc ++ [idr]) := by
          conv_lhs => unfold Beaker.removeLoop
          simp only [hk, hgi]
        rw [hstep] at h
        have hidg : idr ∈ g := List.getElem?_mem hgi
        have hid : idr ∉ gp := hdisj g hk idr hidg
        refine ih (Particle.remove idr st) (acc ++ [idr]) st2 removed h ?_ ?_
        · rw [lookupAssoc_remove, hpk]
          show some (gp.filter (fun x => decide (x ≠ idr))) = some gp
          rw [filter_ne_eq_self hid]
        · intro gcur hgc x hx
          rw [lookupAssoc_remove, hk] at hgc
          have hgc2 : g.filter (fun x2 => decide (x2 ≠ idr)) = gcur :=
            Option.some.inj hgc
          have hxg : x ∈ g := List.mem_of_mem_filter (hgc2 ▸ hx)
          exact hdisj g hk x hxg

/-- Claim C7: randomPoint(particle_radius) returns none exactly when
particle_radius*2 ≥ solution.width or particle_radius*2 ≥ solution.height —
in which case addParticles(type, quantity) places zero particles regardless
of the quantity requested, silently and without error (its only effect is
initializing the empty group) — and otherwise it returns a point leaving
room for the full radius on all sides: x in
[solution.x + r, solution.max_x - r] and y in
[solution.y + r, solution.max_y - r], given random fractions in [0,1). -/
theorem C7_randomPoint_rejection_and_bounds (x y wd ht r rx ry : ℚ)
    (cls : ParticleClass)
    (hrx0 : 0 ≤ rx) (hrx1 : rx < 1) (hry0 : 0 ≤ ry) (hry1 : ry < 1) :
    (Beaker.randomPoint (Beaker.mkSolution x y wd ht) rx ry r = none ↔
      (r * 2 ≥ wd ∨ r * 2 ≥ ht)) ∧
    (∀ px py, Beaker.randomPoint (Beaker.mkSolution x y wd ht) rx ry r = some (px, py) →
      x + r ≤ px ∧ px ≤ (Beaker.mkSolution x y wd ht).max_x - r ∧
      y + r ≤ py ∧ py ≤ (Beaker.mkSolution x y wd ht).max_y - r) ∧
    (cls.collider_radius * 2 ≥ wd ∨ cls.collider_radius * 2 ≥ ht →
      ∀ (q : Nat) (rands : Nat → ℚ × ℚ) (st : BeakerState),
        Beaker.addParticles (Beaker.mkSolution x y wd ht) cls q rands st =
          Beaker.initParticleGroup cls.protoName st) := by
  refine ⟨randomPoint_none_iff _ rx ry r, ?_, ?_⟩
  · intro px py hp
    have hguard : ¬ (r * 2 ≥ wd ∨ r * 2 ≥ ht) := by
      intro hcon
      rw [(randomPoint_none_iff (Beaker.mkSolution x y wd ht) rx ry r).mpr hcon] at hp
      cases hp
    push_neg at hguard
    obtain ⟨hw, hh⟩ := hguard
    have heq : Beaker.randomPoint (Beaker.mkSolution x y wd ht) rx ry r =
        some (x + r + rx * (wd - 2 * r), y + r + ry * (ht - 2 * r)) := by
      unfold Beaker.randomPoint
      rw [if_neg (by push_neg; exact ⟨hw, hh⟩)]
      rfl
    rw [heq] at hp
    simp only [Option.some.injEq, Prod.mk.injEq] at hp
    obtain ⟨hpx, hpy⟩ := hp
    subst hpx
    subst hpy
    have hposw : (0:ℚ) < wd - 2 * r := by linarith
    have hposh : (0:ℚ) < ht - 2 * r := by linarith
    have hx1 : 0 ≤ rx * (wd - 2 * r) := mul_nonneg hrx0 hposw.le
    have hx2 : rx * (wd - 2 * r) ≤ wd - 2 * r := mul_le_of_le_one_left hposw.le hrx1.le
    have hy1 : 0 ≤ ry * (ht - 2 * r) := mul_nonneg hry0 hposh.le
    have hy2 : ry * (ht - 2 * r) ≤ ht - 2 * r := mul_le_of_le_one_left hposh.le hry1.le
    refine ⟨by linarith, ?_, by linarith, ?_⟩
    · show x + r + rx * (wd - 2 * r) ≤ x + wd - r
      linarith
    · show y + r + ry * (ht - 2 * r) ≤ y + ht - r
      linarith
  · intro hbig q rands st
    unfold Beaker.addParticles
    exact addParticlesLoop_reject (Beaker.mkSolution x y wd ht) cls rands
      (fun rx2 ry2 =>
        (randomPoint_none_iff (Beaker.mkSolution x y wd ht) rx2 ry2
          cls.collider_radius).mpr hbig)
      q 0 (Beaker.initParticleGroup cls.protoName st)

/-- Witness for C7: a radius-16 particle does not fit a 4-wide solution, and
addParticles with it only initializes the empty group. -/
theorem C7_randomPoint_rejection_and_bounds_witness :
    Beaker.randomPoint (Beaker.mkSolution 0 0 4 100) 0 0 16 = none ∧
    Beaker.addParticles (Beaker.mkSolution 0 0 4 100) mangledWeakClass 5 (fun _ => (0, 0))
        emptyBeaker =
      Beaker.initParticleGroup "WeakConjugateBase" emptyBeaker := by
  have h := C7_randomPoint_rejection_and_bounds 0 0 4 100 16 0 0 mangledWeakClass
    (le_refl 0) (by norm_num) (le_refl 0) (by norm_num)
  refine ⟨h.1.mpr (Or.inl (by norm_num)), ?_⟩
  exact h.2.2 (Or.inl (show mangledWeakClass.collider_radius * 2 ≥ 4 by
    norm_num [mangledWeakClass])) 5 (fun _ => (0, 0)) emptyBeaker

/-- Claim C9: addParticles registers a class's group under
particle_class.prototype.name while removeParticles looks it up under the
constructor's own static name; for every class whose static name differs
from its prototype name (the situation the prototype name field exists for,
e.g. after webpack mangling), removeParticles does not operate on the group
addParticles populated: it either fails on the absent static-name group, or
removes sprites of a different group, leaving the prototype-name group
unchanged (given that the two groups share no sprite, the beaker's
one-group-per-particle discipline). -/
theorem C9_add_remove_name_mismatch (cls : ParticleClass)
    (hne : cls.staticName ≠ cls.protoName)
    (sol : Solution) (q q2 : Nat) (rands : Nat → ℚ × ℚ) (st st1 st2 : BeakerState)
    (removed gs gp : List Nat) :
    ((lookupAssoc (Beaker.addParticles sol cls q rands st).particles cls.protoName).isSome
      = true) ∧
    (lookupAssoc st1.particles cls.staticName = none →
      Beaker.removeParticles cls q2 st1 =
        .error "TypeError: cannot read sprites of undefined") ∧
    (lookupAssoc st1.particles cls.staticName = some gs →
      lookupAssoc st1.particles cls.protoName = some gp →
      (∀ i ∈ gs, i ∉ gp) →
      Beaker.removeParticles cls q2 st1 = .ok (st2, removed) →
      lookupAssoc st2.particles cls.protoName = some gp) := by
  refine ⟨?_, ?_, ?_⟩
  · unfold Beaker.addParticles
    exact addParticlesLoop_lookup_isSome sol cls rands cls.protoName q 0 _
      (initParticleGroup_lookup_isSome cls.protoName st)
  · intro h
    conv_lhs => unfold Beaker.removeParticles
    simp only [h]
  · intro hgs hgp hdisj hrun
    have hred : Beaker.removeParticles cls q2 st1 =
        Beaker.removeLoop cls.staticName
          (if gs.length < q2 then gs.length else q2) st1 [] := by
      conv_lhs => unfold Beaker.removeParticles
      simp only [hgs]
    rw [hred] at hrun
    refine removeLoop_preserves_other_group cls.staticName cls.protoName gp _ st1 [] st2
      removed hrun hgp ?_
    intro gcur hgc xx hx
    rw [hgs] at hgc
    have hge : gs = gcur := Option.some.inj hgc
    exact hdisj xx (by rw [hge]; exact hx)

/-- Witness for C9: with the mangled weak-base class (static name "t",
prototype name "WeakConjugateBase"), addParticles registers a
"WeakConjugateBase" group, and removeParticles on the resulting beaker
fails looking up the absent "t" group. -/
theorem C9_add_remove_name_mismatch_witness :
    ((lookupAssoc (Beaker.addParticles (Beaker.mkSolution 0 0 100 100) mangledWeakClass 1
        (fun _ => (0, 0)) emptyBeaker).particles "WeakConjugateBase").isSome = true) ∧
    Beaker.removeParticles mangledWeakClass 1
        (Beaker.addParticles (Beaker.mkSolution 0 0 100 100) mangledWeakClass 1
          (fun _ => (0, 0)) emptyBeaker) =
      .error "TypeError: cannot read sprites of undefined" := by
  have h := C9_add_remove_name_mismatch mangledWeakClass (by decide)
    (Beaker.mkSolution 0 0 100 100) 1 1 (fun _ => (0, 0)) emptyBeaker
    (Beaker.addParticles (Beaker.mkSolution 0 0 100 100) mangledWeakClass 1
      (fun _ => (0, 0)) emptyBeaker) emptyBeaker [] [] []
  refine ⟨h.1, h.2.1 ?_⟩
  show lookupAssoc (Beaker.addParticles (Beaker.mkSolution 0 0 100 100) mangledWeakClass 1
    (fun _ => (0, 0)) emptyBeaker).particles "t" = none
  unfold Beaker.addParticles
  rw [addParticlesLoop_lookup_other (Beaker.mkSolution 0 0 100 100) mangledWeakClass
    (fun _ => (0, 0)) "t" (by decide) 1 0
    (Beaker.initParticleGroup mangledWeakClass.protoName emptyBeaker)]
  rfl
